import Mathlib

/-!
Shallow embedding of `src/bots/mnstry/src/bot.py`: a stateful, edge-triggered
storefront sale monitor.  Python floats are modelled as rationals, Python
dictionaries for the feed and the persisted state are modelled as structures
that keep the falsiness and defaulting behaviour of the source explicit, and
the fetch/notification side effects are modelled as explicit inputs/outputs of
otherwise pure functions.
-/

namespace MnstryBot

/-! ### Configuration constants (from the top of bot.py) -/

def MNSTRY_BASE : String := "https://mnstry.com"

def MNSTRY_HOME : String := MNSTRY_BASE ++ "/"

def TOP_N : Nat := 5

def NOTIFY_SALE_END : Bool := false

def MAX_ATTEMPTS : Nat := 3

def RETRY_SLEEP_SECONDS : Nat := 3

/-! ### Raw feed values and parsing -/

/-- A raw per-field value from the JSON feed, as seen by `to_float`:
either absent (`None`), a value whose textual form parses as a number,
or anything unparseable. -/
inductive RawVal where
  | absent : RawVal
  | junk : RawVal
  | num (q : ℚ) : RawVal
deriving DecidableEq

/-- `to_float` (bot.py lines 103-109): `None` and unparseable values map to
`None`; numeric values parse. -/
def to_float : RawVal → Option ℚ
  | .absent => none
  | .junk => none
  | .num q => some q

/-- `calc_discount` (bot.py lines 115-123): returns `(discount_abs, discount_pct)`,
with percentage forced to 0 when the compare-at price is not positive. -/
def calc_discount (compare_at price : ℚ) : ℚ × ℚ :=
  let discount_abs := compare_at - price
  if compare_at ≤ 0 then (discount_abs, 0)
  else (discount_abs, discount_abs / compare_at * 100)

/-- A variant dictionary from the feed: the fields read by `collect_deals`. -/
structure Variant where
  price : RawVal
  compare_at_price : RawVal
  id : Option ℤ
deriving DecidableEq

/-- A product dictionary from the feed.  `variants` distinguishes an absent
key (`none`), a null value (`some none`) and a list (`some (some l)`),
mirroring `p.get("variants", []) or []`. -/
structure Product where
  title : Option String
  handle : Option String
  variants : Option (Option (List Variant))
deriving DecidableEq

/-- Python `x or default` for an optional string field: `None` and the empty
string are falsy and fall through to the default. -/
def str_or (v : Option String) (dflt : String) : String :=
  match v with
  | none => dflt
  | some s => if s = "" then dflt else s

/-- Python `d.get(key, []) or []` for a list-valued key: absent key and null
value both give the empty list. -/
def get_list {α : Type} (v : Option (Option (List α))) : List α :=
  match v with
  | none => []
  | some none => []
  | some (some l) => l

/-- A discounted variant with its computed discount (the dict appended to
`deals` in bot.py lines 166-174). -/
structure Deal where
  title : String
  url : String
  variant_id : ℤ
  price : ℚ
  compare_at : ℚ
  discount_abs : ℚ
  discount_pct : ℚ
deriving DecidableEq

/-- Loop state of the variant scan inside `collect_deals`: accumulated deals,
discounted-variant count, the per-product `product_has_discount` flag and the
cross-product `seen_variant_ids` set (modelled as a list). -/
structure VScan where
  deals : List Deal
  dvc : ℕ
  phd : Bool
  seen : List ℤ
deriving DecidableEq

/-- One iteration of the inner variant loop of `collect_deals`
(bot.py lines 146-174): parse both prices, dedupe on the variant id,
then record a deal when `cap > price`. -/
def stepVariant (title url : String) (st : VScan) (v : Variant) : VScan :=
  match to_float v.price, to_float v.compare_at_price with
  | some price, some cap =>
    let vid_int : ℤ := v.id.getD 0
    if vid_int ∈ st.seen then st
    else
      let st' := { st with seen := vid_int :: st.seen }
      if cap > price then
        let dd := calc_discount cap price
        { st' with
          deals := st'.deals ++ [⟨title, url, vid_int, price, cap, dd.1, dd.2⟩],
          dvc := st'.dvc + 1,
          phd := true }
      else st'
  | _, _ => st

/-- Loop state of the outer product loop of `collect_deals`. -/
structure PScan where
  deals : List Deal
  dpc : ℕ
  dvc : ℕ
  seen : List ℤ
deriving DecidableEq

/-- One iteration of the product loop of `collect_deals` (bot.py lines 139-177). -/
def stepProduct (st : PScan) (p : Product) : PScan :=
  let title := str_or p.title "MNSTRY Product"
  let handle := str_or p.handle ""
  let url := if handle ≠ "" then MNSTRY_BASE ++ "/products/" ++ handle else MNSTRY_HOME
  let r := (get_list p.variants).foldl (stepVariant title url) ⟨st.deals, st.dvc, false, st.seen⟩
  ⟨r.deals, if r.phd then st.dpc + 1 else st.dpc, r.dvc, r.seen⟩

/-- The full scan over all products, including the final `seen` set. -/
def collect_scan (products : List Product) : PScan :=
  products.foldl stepProduct ⟨[], 0, 0, []⟩

/-- `collect_deals` (bot.py lines 126-179): deals, discounted-product count,
discounted-variant count. -/
def collect_deals (products : List Product) : List Deal × ℕ × ℕ :=
  let s := collect_scan products
  (s.deals, s.dpc, s.dvc)

/-! ### Ranking -/

/-- The sort key of `rank_deals` (bot.py line 192):
`(-discount_pct, -discount_abs, price, variant_id)`, compared
lexicographically as Python compares tuples. -/
def dealKey (d : Deal) : Lex (ℚ × Lex (ℚ × Lex (ℚ × ℤ))) :=
  toLex (-d.discount_pct, toLex (-d.discount_abs, toLex (d.price, d.variant_id)))

/-- Comparison used to sort deals: key-lexicographic `≤` (Python compares the
key tuples lexicographically). -/
def dealLE (a b : Deal) : Prop := dealKey a ≤ dealKey b

instance : DecidableRel dealLE := fun a b =>
  inferInstanceAs (Decidable (dealKey a ≤ dealKey b))

instance : IsTotal Deal dealLE := ⟨fun a b => le_total (dealKey a) (dealKey b)⟩

instance : IsTrans Deal dealLE := ⟨fun _ _ _ h₁ h₂ => le_trans h₁ h₂⟩

/-- `rank_deals` (bot.py lines 182-193): the stable sort of the deals by
`dealKey` (Python `sorted` is a stable sort by the key tuple; a stable sort
by a total preorder is unique, so any stable sorting algorithm models it). -/
def rank_deals (deals : List Deal) : List Deal :=
  deals.insertionSort dealLE

/-- The ordering the spec describes: percentage discount descending, then
absolute discount descending, then price ascending, then variant id ascending. -/
def DealOrder (a b : Deal) : Prop :=
  b.discount_pct < a.discount_pct ∨
    (b.discount_pct = a.discount_pct ∧
      (b.discount_abs < a.discount_abs ∨
        (b.discount_abs = a.discount_abs ∧
          (a.price < b.price ∨ (a.price = b.price ∧ a.variant_id ≤ b.variant_id)))))

/-! ### Fixed-point formatting (Python `:.2f` / `:.1f` on the ℚ model) -/

/-- Round to the nearest integer, ties to even (the rounding used when Python
formats a float with a fixed number of decimals). -/
def roundHalfEven (q : ℚ) : ℤ :=
  let n := ⌊q⌋
  let frac := q - n
  if frac < 1/2 then n
  else if 1/2 < frac then n + 1
  else if n % 2 = 0 then n else n + 1

/-- Format a rational with a fixed number of decimal digits, as Python
`f"{x:.Df}"` renders a float. -/
def formatFixed (decimals : ℕ) (q : ℚ) : String :=
  let c := roundHalfEven (q * (10 : ℚ) ^ decimals)
  let sign := if c < 0 then "-" else ""
  let a := c.natAbs
  let ip := a / 10 ^ decimals
  let fp := a % 10 ^ decimals
  let fpStr := toString fp
  let fpPad := String.mk (List.replicate (decimals - fpStr.length) '0') ++ fpStr
  sign ++ toString ip ++ (if decimals = 0 then "" else "." ++ fpPad)

def formatFixed2 : ℚ → String := formatFixed 2

def formatFixed1 : ℚ → String := formatFixed 1

/-- `format_deal_line` (bot.py lines 196-202). -/
def format_deal_line (d : Deal) : String :=
  "• " ++ d.title ++ "\n  " ++ formatFixed2 d.compare_at ++ " → " ++
    formatFixed2 d.price ++ "  (-" ++ formatFixed2 d.discount_abs ++ " / " ++
    formatFixed1 d.discount_pct ++ "%)\n  " ++ d.url

/-! ### Persisted state -/

/-- The persisted dictionary after `load_state` normalisation: the two known
keys plus any other keys the file carried (values opaque to the bot). -/
structure StateDict where
  sale_active : Bool
  last_signature : String
  extra : List (String × String)
deriving DecidableEq

/-- A parsed state file before normalisation: either known key may be absent. -/
structure StateFile where
  sale_active : Option Bool
  last_signature : Option String
  extra : List (String × String)
deriving DecidableEq

/-- The condition of the state file on disk when a cycle starts. -/
inductive LoadInput where
  | missing : LoadInput
  | corrupt : LoadInput
  | dict (f : StateFile) : LoadInput
deriving DecidableEq

/-- `load_state` (bot.py lines 36-55): missing or corrupt file resets to the
default; a parsed dictionary gets defaults for missing keys and keeps
everything else. -/
def load_state : LoadInput → StateDict
  | .missing => ⟨false, "", []⟩
  | .corrupt => ⟨false, "", []⟩
  | .dict f => ⟨f.sale_active.getD false, f.last_signature.getD "", f.extra⟩

/-! ### Fetch -/

/-- The parsed JSON body of the feed: the `products` key (absent / null /
list) and whether the dictionary has any other keys (for Python falsiness). -/
structure FeedDict where
  productsKey : Option (Option (List Product))
  otherKeys : Bool
deriving DecidableEq

/-- Python `not data` for the fetched dictionary: an empty dict is falsy. -/
def FeedDict.isFalsy (d : FeedDict) : Bool :=
  d.productsKey.isNone && !d.otherKeys

/-- `data.get("products", []) or []` (bot.py line 216). -/
def FeedDict.getProducts (d : FeedDict) : List Product :=
  get_list d.productsKey

/-- The outcome of the HTTP GET as seen by `http_get_json`: either the request
raised a `requests.RequestException`, or a response with a status code, an
optional content-type header and a body that may or may not parse as JSON. -/
inductive FetchInput where
  | exc : FetchInput
  | resp (status : ℕ) (contentType : Option String) (body : Option FeedDict) : FetchInput
deriving DecidableEq

/-- Python `str.lower`, modelled per character. -/
def strLower (s : String) : String :=
  ⟨s.data.map Char.toLower⟩

/-- Substring test (Python `needle in haystack` on strings). -/
def containsSub (hay needle : String) : Bool :=
  decide (needle.data <:+: hay.data)

/-- `http_get_json` (bot.py lines 80-100): request exceptions, non-200
statuses, non-JSON content types and unparseable bodies all yield `None`. -/
def http_get_json : FetchInput → Option FeedDict
  | .exc => none
  | .resp status ct body =>
    if status ≠ 200 then none
    else
      let c := strLower (ct.getD "")
      if containsSub c "application/json" = false ∧ containsSub c "json" = false then none
      else body

/-! ### Episode, signature, messages -/

/-- The two notification episode shapes of the spec. -/
inductive Episode where
  | saleStarted : Episode
  | saleEnded : Episode
deriving DecidableEq

/-- The edge-trigger decision of `run_once` (bot.py lines 233 and 261):
a `SaleStarted` episode on a false→true flag transition, a `SaleEnded`
episode on a true→false transition only when the end-notification flag is on. -/
def sale_episode (was_active sale_now notify_end : Bool) : Option Episode :=
  if was_active = false ∧ sale_now = true then some .saleStarted
  else if was_active = true ∧ sale_now = false ∧ notify_end = true then some .saleEnded
  else none

/-- The diagnostic signature (bot.py lines 225-228), built from the head of
the truncated ranking: `"<id>|<compare_at:.2f>><price:.2f>"`, empty when
there is no top deal. -/
def build_signature : List Deal → String
  | [] => ""
  | d0 :: _ =>
    toString d0.variant_id ++ "|" ++ formatFixed2 d0.compare_at ++ ">" ++
      formatFixed2 d0.price

/-- The two messages composed for a `SaleStarted` episode
(bot.py lines 234-258): a summary with the first `TOP_N` ranked deals, then a
second message that always goes out, with the next ranked slice if any. -/
def sale_start_messages (discounted_products discounted_variants : ℕ)
    (top next_top : List Deal) : List String :=
  let header_1 :=
    "🚨 MNSTRY Rabattaktion erkannt!\n\n📦 Reduzierte Produkte: " ++
      toString discounted_products ++ "\n🏷️ Reduzierte Varianten: " ++
      toString discounted_variants ++ "\n🔗 " ++ MNSTRY_HOME ++ "\n\n🔥 Top " ++
      toString (if top.isEmpty then TOP_N else min TOP_N top.length) ++ " Deals:\n"
  let body_1 :=
    if top.isEmpty then "• (keine Details verfügbar)"
    else String.intercalate "\n\n" (top.map format_deal_line)
  let remaining_variants : ℤ := max 0 ((discounted_variants : ℤ) - top.length)
  let header_2 :=
    "📩 Weitere Infos:\n• Weitere reduzierte Varianten (nach Top " ++
      toString top.length ++ "): " ++ toString remaining_variants ++ "\n"
  let msg_2 :=
    if next_top.isEmpty then header_2 ++ "\n(Keine weiteren Deals in den nächsten Slots.)"
    else header_2 ++ "\n➡️ Nächste Top Deals:\n" ++
      String.intercalate "\n\n" (next_top.map format_deal_line)
  [header_1 ++ body_1, msg_2]

/-- The sale-end notice (bot.py line 262). -/
def SALE_END_MSG : String :=
  "✅ MNSTRY: Rabattaktion scheint beendet (keine reduzierten Varianten mehr gefunden)."

/-! ### One cycle -/

/-- The observable outcome of one cycle: the chat messages sent, in order, and
the state written to the file (`none` means the file was not touched). -/
structure RunResult where
  messages : List String
  written : Option StateDict
deriving DecidableEq

/-- The decide-and-notify part of `run_once` (bot.py lines 216-267), after the
fetch produced usable data. -/
def run_cycle (state : StateDict) (products : List Product)
    (notify_sale_end : Bool) : RunResult :=
  let cd := collect_deals products
  let deals := cd.1
  let discounted_products := cd.2.1
  let discounted_variants := cd.2.2
  let sale_now : Bool := decide (0 < deals.length)
  let ranked := rank_deals deals
  let top := ranked.take TOP_N
  let next_top := (ranked.drop TOP_N).take TOP_N
  let signature := build_signature top
  let was_active := state.sale_active
  let start_msgs :=
    if was_active = false ∧ sale_now = true then
      sale_start_messages discounted_products discounted_variants top next_top
    else []
  let end_msgs :=
    if was_active = true ∧ sale_now = false ∧ notify_sale_end = true then
      [SALE_END_MSG]
    else []
  { messages := start_msgs ++ end_msgs,
    written := some { state with sale_active := sale_now, last_signature := signature } }

/-- `run_once` (bot.py lines 208-267): load the state, fetch; a fetch with no
usable data (including a falsy empty dict) ends the cycle with no message and
no state write; otherwise run the decision cycle. -/
def run_once (file : LoadInput) (fetch : FetchInput) (notify_sale_end : Bool) : RunResult :=
  let state := load_state file
  match http_get_json fetch with
  | none => ⟨[], none⟩
  | some data =>
    if data.isFalsy then ⟨[], none⟩
    else run_cycle state data.getProducts notify_sale_end

/-! ### The retry loop of `main` -/

/-- How one attempt of `run_once` ends, as seen by `main`: normal return, a
`requests.RequestException`, or any other exception. -/
inductive CycleOutcome where
  | ok : CycleOutcome
  | reqExc : CycleOutcome
  | otherExc : CycleOutcome
deriving DecidableEq

/-- The outcome of `main`: normal return or a re-raised exception, together
with the sleeps performed (in seconds, in order). -/
inductive MainResult where
  | success (sleeps : List ℕ) : MainResult
  | raised (exc : CycleOutcome) (sleeps : List ℕ) : MainResult
deriving DecidableEq

/-- The body of `main`'s retry loop (bot.py lines 270-285), indexed by the
current attempt and remaining fuel, accumulating sleeps in reverse. -/
def mainGo (outs : ℕ → CycleOutcome) : ℕ → ℕ → List ℕ → MainResult
  | _, 0, sleeps => .success sleeps.reverse
  | attempt, fuel + 1, sleeps =>
    match outs attempt with
    | .ok => .success sleeps.reverse
    | .reqExc =>
      if attempt = MAX_ATTEMPTS - 1 then .raised .reqExc sleeps.reverse
      else mainGo outs (attempt + 1) fuel (RETRY_SLEEP_SECONDS * (attempt + 1) :: sleeps)
    | .otherExc =>
      if attempt = MAX_ATTEMPTS - 1 then .raised .otherExc sleeps.reverse
      else mainGo outs (attempt + 1) fuel (RETRY_SLEEP_SECONDS :: sleeps)

/-- `main` (bot.py lines 270-285), given the outcome of each attempt. -/
def mainLoop (outs : ℕ → CycleOutcome) : MainResult :=
  mainGo outs 0 MAX_ATTEMPTS []

/-! ### Example inputs used by witnesses and counterexamples -/

/-- The spec scenario's single discounted variant: id 1, price 40, compare-at 80. -/
def exVariant : Variant := ⟨.num 40, .num 80, some 1⟩

def exProduct : Product := ⟨some "T", some "h", some (some [exVariant])⟩

def exFeed : FeedDict := ⟨some (some [exProduct]), false⟩

def exFetch : FetchInput := .resp 200 (some "application/json") (some exFeed)

/-- A product whose single variant has two negative but parseable prices with
compare-at above price. -/
def negProduct : Product := ⟨some "T", some "h", some (some [⟨.num (-5), .num (-1), some 2⟩])⟩

/-- A product listing variant id 7 twice: first with equal prices (parseable,
not discounted), then with a genuine discount. -/
def dupProduct : Product :=
  ⟨some "T", some "h", some (some [⟨.num 10, .num 10, some 7⟩, ⟨.num 5, .num 10, some 7⟩])⟩

/-! ### Helper lemmas -/

/-- Splitting `run_once` on a successful, non-falsy fetch. -/
theorem run_once_eq_cycle {fetch : FetchInput} {d : FeedDict}
    (file : LoadInput) (notify : Bool)
    (hget : http_get_json fetch = some d) (hdata : d.isFalsy = false) :
    run_once file fetch notify = run_cycle (load_state file) d.getProducts notify := by
  simp [run_once, hget, hdata]

/-- The state written by a completed cycle. -/
theorem run_cycle_written (s : StateDict) (products : List Product) (notify : Bool) :
    (run_cycle s products notify).written =
      some { s with
        sale_active := decide (0 < (collect_deals products).1.length),
        last_signature :=
          build_signature ((rank_deals (collect_deals products).1).take TOP_N) } :=
  rfl

/-- The messages sent by a completed cycle. -/
theorem run_cycle_messages (s : StateDict) (products : List Product) (notify : Bool) :
    (run_cycle s products notify).messages =
      (if s.sale_active = false ∧ decide (0 < (collect_deals products).1.length) = true then
        sale_start_messages (collect_deals products).2.1 (collect_deals products).2.2
          ((rank_deals (collect_deals products).1).take TOP_N)
          (((rank_deals (collect_deals products).1).drop TOP_N).take TOP_N)
      else []) ++
      (if s.sale_active = true ∧ decide (0 < (collect_deals products).1.length) = false ∧
          notify = true then [SALE_END_MSG] else []) :=
  rfl

/-- A `SaleStarted` episode always composes exactly two messages. -/
theorem sale_start_messages_length (dp dv : ℕ) (top next_top : List Deal) :
    (sale_start_messages dp dv top next_top).length = 2 :=
  rfl

/-- The boolean deal comparison spelt out as the spec's four-key ordering. -/
theorem dealLE_iff (a b : Deal) : dealLE a b ↔ DealOrder a b := by
  simp only [dealLE, dealKey, DealOrder, Prod.Lex.le_iff]
  constructor
  · rintro (h | ⟨he, h | ⟨he2, h | ⟨he3, h⟩⟩⟩)
    · exact Or.inl (by simpa using h)
    · exact Or.inr ⟨neg_inj.mp he |>.symm, Or.inl (by simpa using h)⟩
    · exact Or.inr ⟨neg_inj.mp he |>.symm, Or.inr ⟨neg_inj.mp he2 |>.symm, Or.inl h⟩⟩
    · exact Or.inr ⟨neg_inj.mp he |>.symm, Or.inr ⟨neg_inj.mp he2 |>.symm, Or.inr ⟨he3, h⟩⟩⟩
  · rintro (h | ⟨he, h | ⟨he2, h | ⟨he3, h⟩⟩⟩)
    · exact Or.inl (by simpa using h)
    · exact Or.inr ⟨by rw [he], Or.inl (by simpa using h)⟩
    · exact Or.inr ⟨by rw [he], Or.inr ⟨by rw [he2], Or.inl h⟩⟩
    · exact Or.inr ⟨by rw [he], Or.inr ⟨by rw [he2], Or.inr ⟨he3, h⟩⟩⟩

/-- Invariant carried through the `collect_deals` scan: deal identifiers are
distinct, every recorded identifier is in the seen-set, and every recorded
deal is strictly discounted. -/
def GoodScan (deals : List Deal) (seen : List ℤ) : Prop :=
  (deals.map Deal.variant_id).Nodup ∧
    (∀ d ∈ deals, d.variant_id ∈ seen) ∧
    ∀ d ∈ deals, d.price < d.compare_at

/-- A variant whose (defaulted) identifier was already seen changes nothing. -/
theorem stepVariant_mem_seen (t u : String) (st : VScan) (v : Variant)
    (h : v.id.getD 0 ∈ st.seen) : stepVariant t u st v = st := by
  cases hp : to_float v.price with
  | none => simp [stepVariant, hp]
  | some price =>
    cases hc : to_float v.compare_at_price with
    | none => simp [stepVariant, hp, hc]
    | some cap => simp [stepVariant, hp, hc, h]

/-- One variant step preserves the scan invariant. -/
theorem stepVariant_good (t u : String) (st : VScan) (v : Variant)
    (h : GoodScan st.deals st.seen) :
    GoodScan (stepVariant t u st v).deals (stepVariant t u st v).seen := by
  obtain ⟨hnd, hseen, hdisc⟩ := h
  cases hp : to_float v.price with
  | none => simpa [stepVariant, hp] using ⟨hnd, hseen, hdisc⟩
  | some price =>
    cases hc : to_float v.compare_at_price with
    | none => simpa [stepVariant, hp, hc] using ⟨hnd, hseen, hdisc⟩
    | some cap =>
      by_cases hmem : v.id.getD 0 ∈ st.seen
      · simpa [stepVariant, hp, hc, hmem] using ⟨hnd, hseen, hdisc⟩
      · by_cases hgt : price < cap
        · refine ⟨?_, ?_, ?_⟩ <;>
            simp only [stepVariant, hp, hc, if_neg hmem, if_pos hgt, List.map_append]
          · rw [List.nodup_append]
            refine ⟨hnd, by simp, ?_⟩
            intro x hx hy
            simp only [List.map_cons, List.map_nil, List.mem_singleton] at hy
            subst hy
            rcases List.mem_map.mp hx with ⟨d, hd, hdx⟩
            exact hmem (hdx ▸ hseen d hd)
          · intro d hd
            rcases List.mem_append.mp hd with hd | hd
            · exact List.mem_cons_of_mem _ (hseen d hd)
            · simp only [List.mem_singleton] at hd
              subst hd
              exact List.mem_cons_self _ _
          · intro d hd
            rcases List.mem_append.mp hd with hd | hd
            · exact hdisc d hd
            · simp only [List.mem_singleton] at hd
              subst hd
              exact hgt
        · refine ⟨?_, ?_, ?_⟩ <;>
            simp only [stepVariant, hp, hc, if_neg hmem, if_neg hgt]
          · exact hnd
          · exact fun d hd => List.mem_cons_of_mem _ (hseen d hd)
          · exact hdisc

/-- The inner variant fold preserves the scan invariant. -/
theorem foldl_stepVariant_good (t u : String) (vs : List Variant) (st : VScan)
    (h : GoodScan st.deals st.seen) :
    GoodScan ((vs.foldl (stepVariant t u) st).deals) ((vs.foldl (stepVariant t u) st).seen) := by
  induction vs generalizing st with
  | nil => exact h
  | cons v vs ih => exact ih _ (stepVariant_good t u st v h)

/-- One product step preserves the scan invariant. -/
theorem stepProduct_good (st : PScan) (p : Product)
    (h : GoodScan st.deals st.seen) :
    GoodScan (stepProduct st p).deals (stepProduct st p).seen := by
  simpa [stepProduct] using
    foldl_stepVariant_good _ _ (get_list p.variants) ⟨st.deals, st.dvc, false, st.seen⟩ h

/-- The whole scan satisfies the invariant. -/
theorem collect_scan_good (products : List Product) :
    GoodScan (collect_scan products).deals (collect_scan products).seen := by
  suffices h : ∀ st : PScan, GoodScan st.deals st.seen →
      GoodScan ((products.foldl stepProduct st).deals) ((products.foldl stepProduct st).seen) by
    exact h ⟨[], 0, 0, []⟩ ⟨by simp, by simp, by simp⟩
  induction products with
  | nil => exact fun st h => h
  | cons p ps ih => exact fun st h => ih _ (stepProduct_good st p h)

/-- A one-product, one-variant feed yields a deal exactly when both prices
parse and the compare-at price strictly exceeds the price. -/
theorem collect_single_variant_iff (t h : Option String) (id : Option ℤ) (pr cp : RawVal) :
    (collect_deals [⟨t, h, some (some [⟨pr, cp, id⟩])⟩]).1 ≠ [] ↔
      ∃ p c, to_float pr = some p ∧ to_float cp = some c ∧ p < c := by
  cases hp : to_float pr with
  | none =>
    simp [collect_deals, collect_scan, stepProduct, get_list, stepVariant, hp]
  | some price =>
    cases hc : to_float cp with
    | none =>
      simp [collect_deals, collect_scan, stepProduct, get_list, stepVariant, hp, hc]
    | some cap =>
      by_cases hlt : price < cap
      · simp [collect_deals, collect_scan, stepProduct, get_list, stepVariant, hp, hc, hlt]
      · simp only [collect_deals, collect_scan, List.foldl_cons, List.foldl_nil, stepProduct,
          get_list, stepVariant, hp, hc]
        simp only [List.not_mem_nil, if_false, if_neg hlt]
        constructor
        · intro hcontra
          exact absurd rfl hcontra
        · rintro ⟨p, c, hp2, hc2, hlt2⟩
          cases hp2
          cases hc2
          exact absurd hlt2 hlt

/-- The seen-set after scanning one discounted variant from the empty state. -/
theorem stepVariant_first_seen (t u : String) (id : ℤ) (p c : ℚ) :
    (stepVariant t u ⟨[], 0, false, []⟩ ⟨.num p, .num c, some id⟩).seen = [id] := by
  by_cases hlt : p < c <;> simp [stepVariant, to_float, hlt]

/-- A later occurrence of an already-scanned variant identifier is dropped:
the duplicated feed and the deduplicated feed produce identical results. -/
theorem collect_dup_dropped (t h : Option String) (id : ℤ) (p c : ℚ) (v₂ : Variant)
    (hv : v₂.id = some id) :
    collect_deals [⟨t, h, some (some [⟨.num p, .num c, some id⟩, v₂])⟩] =
      collect_deals [⟨t, h, some (some [⟨.num p, .num c, some id⟩])⟩] := by
  simp only [collect_deals, collect_scan, List.foldl_cons, List.foldl_nil, stepProduct, get_list]
  rw [stepVariant_mem_seen]
  rw [stepVariant_first_seen, hv]
  simp

/-- A cycle's outcome does not depend on the loaded `last_signature`. -/
theorem run_cycle_congr (s₁ s₂ : StateDict) (products : List Product) (notify : Bool)
    (hsa : s₁.sale_active = s₂.sale_active) (hex : s₁.extra = s₂.extra) :
    run_cycle s₁ products notify = run_cycle s₂ products notify := by
  simp only [run_cycle, hsa, hex]

section RatEval

attribute [local semireducible] Rat.sub Rat.add Rat.mul Rat.inv

/-- C6: `rank_deals` returns a permutation of its input (a fresh sequence with
the same elements), pairwise ordered by percentage discount descending, then
absolute discount descending, then price ascending, then variant id ascending;
the comparison is total and antisymmetric on keys (a total order), the sort is
stable for equal keys, and the boolean comparison used by the sort coincides
with that four-key ordering. -/
theorem rank_deals_ordering :
    (∀ l : List Deal, (rank_deals l).Perm l) ∧
    (∀ l : List Deal, (rank_deals l).Pairwise DealOrder) ∧
    (∀ l c : List Deal, c.Pairwise dealLE → c.Sublist l → c.Sublist (rank_deals l)) ∧
    (∀ a b : Deal, DealOrder a b ∨ DealOrder b a) ∧
    (∀ a b : Deal, DealOrder a b → DealOrder b a → dealKey a = dealKey b) ∧
    (∀ a b : Deal, dealLE a b ↔ DealOrder a b) := by
  refine ⟨?_, ?_, ?_, ?_, ?_, dealLE_iff⟩
  · exact fun l => List.perm_insertionSort dealLE l
  · exact fun l => (List.sorted_insertionSort dealLE l).imp fun h => (dealLE_iff _ _).mp h
  · exact fun l c hc hcl => List.sublist_insertionSort hc hcl
  · intro a b
    rcases le_total (dealKey a) (dealKey b) with h | h
    · exact Or.inl ((dealLE_iff a b).mp h)
    · exact Or.inr ((dealLE_iff b a).mp h)
  · exact fun a b hab hba =>
      le_antisymm ((dealLE_iff a b).mpr hab) ((dealLE_iff b a).mpr hba)

/-- Witness for C6: the stability clause applied to two equal-key deals that
appear in input order. -/
theorem rank_deals_ordering_witness :
    [(⟨"C", "u", 1, 50, 100, 50, 50⟩ : Deal), ⟨"D", "u", 1, 50, 100, 50, 50⟩].Sublist
      (rank_deals [⟨"C", "u", 1, 50, 100, 50, 50⟩, ⟨"D", "u", 1, 50, 100, 50, 50⟩]) :=
  rank_deals_ordering.2.2.1 _ _ (by decide) (by decide)

/-- C8: the diagnostic signature is the empty string for an empty ranking and
otherwise encodes the top deal as `"<id>|<compare_at:2dp>><price:2dp>"`; every
completed cycle persists exactly that signature of the truncated ranking; and
on the spec's scenario (one variant, id 1, price 40, compare-at 80) the run
yields one deal with 50% and 40 absolute discount, two messages, and persists
`sale_active = true` with signature `"1|80.00>40.00"`. -/
theorem signature_format :
    build_signature [] = "" ∧
    (∀ (d : Deal) (rest : List Deal),
      build_signature (d :: rest) =
        toString d.variant_id ++ "|" ++ formatFixed2 d.compare_at ++ ">" ++
          formatFixed2 d.price) ∧
    (∀ (state : StateDict) (products : List Product) (notify : Bool),
      (run_cycle state products notify).written =
        some { state with
          sale_active := decide (0 < (collect_deals products).1.length),
          last_signature :=
            build_signature ((rank_deals (collect_deals products).1).take TOP_N) }) ∧
    (collect_deals [exProduct]).1 =
      [⟨"T", "https://mnstry.com/products/h", 1, 40, 80, 40, 50⟩] ∧
    (run_once .missing exFetch false).written = some ⟨true, "1|80.00>40.00", []⟩ ∧
    (run_once .missing exFetch false).messages.length = 2 :=
  ⟨rfl, fun _ _ => rfl, fun _ _ _ => rfl, by decide, by decide, by decide⟩

/-- C3: a fetch with no usable data ends the cycle quietly: a non-200 status,
a content type without `json`, or an unparseable body each produce no message
and no state write; and a cycle that returns normally consumes no retry
attempt (no sleep, immediate success). -/
theorem no_data_quiet :
    (∀ (file : LoadInput) (notify : Bool) (status : ℕ) (ct : Option String)
        (body : Option FeedDict), status ≠ 200 →
      run_once file (.resp status ct body) notify = ⟨[], none⟩) ∧
    (∀ (file : LoadInput) (notify : Bool) (ct : Option String) (body : Option FeedDict),
      containsSub (strLower (ct.getD "")) "application/json" = false →
      containsSub (strLower (ct.getD "")) "json" = false →
      run_once file (.resp 200 ct body) notify = ⟨[], none⟩) ∧
    (∀ (file : LoadInput) (notify : Bool) (status : ℕ) (ct : Option String),
      run_once file (.resp status ct none) notify = ⟨[], none⟩) ∧
    (∀ outs : ℕ → CycleOutcome, outs 0 = .ok → mainLoop outs = .success []) := by
  refine ⟨?_, ?_, ?_, ?_⟩
  · intro file notify status ct body h
    simp [run_once, http_get_json, h]
  · intro file notify ct body h1 h2
    simp [run_once, http_get_json, h1, h2]
  · intro file notify status ct
    have hn : http_get_json (.resp status ct none) = none := by
      simp only [http_get_json]
      split_ifs <;> rfl
    simp [run_once, hn]
  · intro outs h
    simp [mainLoop, mainGo, h]

/-- Witness for C3: an HTTP 503, a `text/html` content type, an unparseable
body, and a clean first attempt. -/
theorem no_data_quiet_witness :
    run_once .missing (.resp 503 (some "application/json") (some exFeed)) false =
      ⟨[], none⟩ ∧
    run_once .missing (.resp 200 (some "text/html") (some exFeed)) false = ⟨[], none⟩ ∧
    run_once .missing (.resp 200 (some "application/json") none) false = ⟨[], none⟩ ∧
    mainLoop (fun _ => .ok) = .success [] :=
  ⟨no_data_quiet.1 .missing false 503 _ _ (by decide),
   no_data_quiet.2.1 .missing false _ _ (by decide) (by decide),
   no_data_quiet.2.2.1 .missing false 200 _,
   no_data_quiet.2.2.2 _ rfl⟩

/-- Counterexample for C5: a network exception in the fetch step does not
reach the retry loop at all — `http_get_json` swallows it, the cycle ends
quietly with no message and no state write, and `main` returns success on the
first attempt with no sleep and no retry, instead of backing off and
eventually propagating as the claim states. -/
theorem fetch_exception_not_retried :
    http_get_json .exc = none ∧
    run_once .missing .exc false = ⟨[], none⟩ ∧
    mainLoop (fun _ => .ok) = .success [] :=
  ⟨rfl, by decide, by decide⟩

/-- C5 (amended): a `requests.RequestException` raised out of the cycle body
(only notification delivery can do so; fetch-step network errors are swallowed
by the fetch helper and end the cycle quietly) is retried with an increasing
backoff of base×attemptNumber seconds and propagates on the third attempt; any
other exception is retried with a flat base backoff under the same bound. -/
theorem retry_policy :
    (∀ outs : ℕ → CycleOutcome, outs 0 = .reqExc → outs 1 = .reqExc → outs 2 = .reqExc →
      mainLoop outs = .raised .reqExc [RETRY_SLEEP_SECONDS * 1, RETRY_SLEEP_SECONDS * 2]) ∧
    (∀ outs : ℕ → CycleOutcome, outs 0 = .otherExc → outs 1 = .otherExc → outs 2 = .otherExc →
      mainLoop outs = .raised .otherExc [RETRY_SLEEP_SECONDS, RETRY_SLEEP_SECONDS]) ∧
    (∀ outs : ℕ → CycleOutcome, outs 0 = .reqExc → outs 1 = .ok →
      mainLoop outs = .success [RETRY_SLEEP_SECONDS * 1]) ∧
    (∀ (file : LoadInput) (notify : Bool), run_once file .exc notify = ⟨[], none⟩) := by
  refine ⟨?_, ?_, ?_, ?_⟩
  · intro outs h0 h1 h2
    simp [mainLoop, mainGo, MAX_ATTEMPTS, RETRY_SLEEP_SECONDS, h0, h1, h2]
  · intro outs h0 h1 h2
    simp [mainLoop, mainGo, MAX_ATTEMPTS, RETRY_SLEEP_SECONDS, h0, h1, h2]
  · intro outs h0 h1
    simp [mainLoop, mainGo, MAX_ATTEMPTS, RETRY_SLEEP_SECONDS, h0, h1]
  · intro file notify
    simp [run_once, http_get_json]

/-- Witness for C5 (amended): three failing attempts of each kind, one
recovery after a single transient failure, and a quiet fetch exception. -/
theorem retry_policy_witness :
    mainLoop (fun _ => .reqExc) = .raised .reqExc [3, 6] ∧
    mainLoop (fun _ => .otherExc) = .raised .otherExc [3, 3] ∧
    mainLoop (fun n => if n = 0 then .reqExc else .ok) = .success [3] ∧
    run_once .missing .exc false = ⟨[], none⟩ :=
  ⟨retry_policy.1 _ rfl rfl rfl, retry_policy.2.1 _ rfl rfl rfl,
   retry_policy.2.2.1 _ rfl rfl, retry_policy.2.2.2 .missing false⟩

/-- C1: with usable fetched data, (a) a previously-quiet state together with
at least one extracted deal emits one `SaleStarted` episode and exactly two
messages; (b) a previously-active state with zero deals and the end
notification disabled sends nothing but persists the flag as `false`; (c) when
the previous flag already equals the fresh sale signal, nothing is sent and
the same flag value is re-persisted. -/
theorem run_once_state_transitions (file : LoadInput) (fetch : FetchInput) (notify : Bool)
    (d : FeedDict) (hget : http_get_json fetch = some d) (hdata : d.isFalsy = false) :
    ((load_state file).sale_active = false → (collect_deals d.getProducts).1 ≠ [] →
      sale_episode (load_state file).sale_active
          (decide (0 < (collect_deals d.getProducts).1.length)) notify =
        some Episode.saleStarted ∧
      (run_once file fetch notify).messages.length = 2) ∧
    ((load_state file).sale_active = true → (collect_deals d.getProducts).1 = [] →
      notify = false →
      (run_once file fetch notify).messages = [] ∧
      (run_once file fetch notify).written =
        some { load_state file with sale_active := false, last_signature := "" }) ∧
    ((load_state file).sale_active = decide (0 < (collect_deals d.getProducts).1.length) →
      (run_once file fetch notify).messages = [] ∧
      ∃ s, (run_once file fetch notify).written = some s ∧
        s.sale_active = (load_state file).sale_active) := by
  rw [run_once_eq_cycle file notify hget hdata]
  refine ⟨?_, ?_, ?_⟩
  · intro hq hne
    have hpos : 0 < (collect_deals d.getProducts).1.length := List.length_pos.mpr hne
    constructor
    · simp [sale_episode, hq, hpos]
    · rw [run_cycle_messages]
      simp [hq, hpos, sale_start_messages_length]
  · intro ha hemp hnot
    constructor
    · rw [run_cycle_messages]
      simp [ha, hnot]
    · rw [run_cycle_written]
      simp [hemp, rank_deals, build_signature]
  · intro heq
    constructor
    · rw [run_cycle_messages]
      by_cases hpos : 0 < (collect_deals d.getProducts).1.length
      · have : (load_state file).sale_active = true := by simp [heq, hpos]
        simp [this, hpos]
      · have : (load_state file).sale_active = false := by simp [heq, hpos]
        simp [this, hpos]
    · exact ⟨_, run_cycle_written _ _ _, heq.symm⟩

/-- Witness for C1: the spec scenario (quiet state, one discounted variant)
emits a `SaleStarted` episode with two messages; an active state over a feed
with no variants sends nothing and persists the flag as `false`; an active
state over the discounted feed keeps its flag. -/
theorem run_once_state_transitions_witness :
    ((collect_deals exFeed.getProducts).1 ≠ [] ∧
      sale_episode (load_state .missing).sale_active
          (decide (0 < (collect_deals exFeed.getProducts).1.length)) false =
        some Episode.saleStarted ∧
      (run_once .missing exFetch false).messages.length = 2) ∧
    ((run_once (.dict ⟨some true, some "x", []⟩)
        (.resp 200 (some "application/json") (some ⟨some (some []), false⟩)) false).messages = [] ∧
      (run_once (.dict ⟨some true, some "x", []⟩)
          (.resp 200 (some "application/json") (some ⟨some (some []), false⟩)) false).written =
        some { load_state (.dict ⟨some true, some "x", []⟩) with
          sale_active := false, last_signature := "" }) ∧
    ((run_once (.dict ⟨some true, some "x", []⟩) exFetch false).messages = [] ∧
      ∃ s, (run_once (.dict ⟨some true, some "x", []⟩) exFetch false).written = some s ∧
        s.sale_active = (load_state (.dict ⟨some true, some "x", []⟩)).sale_active) := by
  refine ⟨⟨by decide, ?_⟩, ?_, ?_⟩
  · exact (run_once_state_transitions .missing exFetch false exFeed (by decide) (by decide)).1
      (by decide) (by decide)
  · exact (run_once_state_transitions (.dict ⟨some true, some "x", []⟩)
      (.resp 200 (some "application/json") (some ⟨some (some []), false⟩)) false
      ⟨some (some []), false⟩ (by decide) (by decide)).2.1 (by decide) (by decide) rfl
  · exact (run_once_state_transitions (.dict ⟨some true, some "x", []⟩) exFetch false exFeed
      (by decide) (by decide)).2.2 (by decide)

/-- C7: if a cycle on some fetched input persisted `sale_active = true`, then
re-running the cycle on the same fetched input from that persisted state sends
no message and writes back exactly the same state. -/
theorem run_once_idempotent (file : LoadInput) (fetch : FetchInput) (notify : Bool)
    (s : StateDict) (h : (run_once file fetch notify).written = some s)
    (ha : s.sale_active = true) :
    run_once (.dict ⟨some s.sale_active, some s.last_signature, s.extra⟩) fetch notify =
      ⟨[], some s⟩ := by
  cases hget : http_get_json fetch with
  | none => simp [run_once, hget] at h
  | some d =>
    by_cases hdf : d.isFalsy = true
    · simp [run_once, hget, hdf] at h
    · have hdf2 : d.isFalsy = false := by simpa using hdf
      rw [run_once_eq_cycle file notify hget hdf2, run_cycle_written] at h
      have hs := Option.some.inj h
      have h1 : s.sale_active = decide (0 < (collect_deals d.getProducts).1.length) := by
        rw [← hs]
      have h2 : s.last_signature =
          build_signature ((rank_deals (collect_deals d.getProducts).1).take TOP_N) := by
        rw [← hs]
      rw [run_once_eq_cycle _ notify hget hdf2]
      have hload : load_state (.dict ⟨some s.sale_active, some s.last_signature, s.extra⟩) = s :=
        rfl
      rw [hload]
      have hmsg : (run_cycle s d.getProducts notify).messages = [] := by
        rw [run_cycle_messages]
        simp [ha, ← h1]
      have hwr : (run_cycle s d.getProducts notify).written = some s := by
        rw [run_cycle_written]
        cases s with
        | mk a b c =>
          simp only at h1 h2 ⊢
          rw [← h1, ← h2]
      calc run_cycle s d.getProducts notify
      _ = ⟨(run_cycle s d.getProducts notify).messages,
            (run_cycle s d.getProducts notify).written⟩ := rfl
      _ = ⟨[], some s⟩ := by rw [hmsg, hwr]

/-- Witness for C7: re-running the spec scenario from its own persisted state
is silent and re-persists the identical state. -/
theorem run_once_idempotent_witness :
    run_once (.dict ⟨some true, some "1|80.00>40.00", []⟩) exFetch false =
      ⟨[], some ⟨true, "1|80.00>40.00", []⟩⟩ :=
  run_once_idempotent .missing exFetch false ⟨true, "1|80.00>40.00", []⟩ (by decide) rfl

/-- C9: two runs on identical fetched input whose loaded states differ only in
`last_signature` behave identically: same messages and identical written
states — the stored signature influences nothing. -/
theorem signature_no_influence (fetch : FetchInput) (notify : Bool) (f₁ f₂ : StateFile)
    (hsa : f₁.sale_active = f₂.sale_active) (hex : f₁.extra = f₂.extra) :
    run_once (.dict f₁) fetch notify = run_once (.dict f₂) fetch notify := by
  cases hget : http_get_json fetch with
  | none => simp [run_once, hget]
  | some d =>
    by_cases hdf : d.isFalsy = true
    · simp [run_once, hget, hdf]
    · have hdf2 : d.isFalsy = false := by simpa using hdf
      rw [run_once_eq_cycle _ notify hget hdf2, run_once_eq_cycle _ notify hget hdf2]
      exact run_cycle_congr _ _ _ _ (by simp [load_state, hsa]) (by simp [load_state, hex])

/-- Witness for C9: two states that differ only in the stored signature yield
equal runs on the spec scenario's feed. -/
theorem signature_no_influence_witness :
    run_once (.dict ⟨some false, some "old-sig-a", []⟩) exFetch false =
      run_once (.dict ⟨some false, some "old-sig-b", []⟩) exFetch false :=
  signature_no_influence exFetch false _ _ rfl rfl

/-- C10: a completed cycle (usable fetched data) writes back the loaded state
with every extra key preserved unchanged and only `sale_active` and
`last_signature` set, to the fresh sale flag and signature. -/
theorem state_frame (f : StateFile) (fetch : FetchInput) (notify : Bool) (d : FeedDict)
    (hget : http_get_json fetch = some d) (hdata : d.isFalsy = false) :
    (run_once (.dict f) fetch notify).written =
      some ⟨decide (0 < (collect_deals d.getProducts).1.length),
        build_signature ((rank_deals (collect_deals d.getProducts).1).take TOP_N),
        f.extra⟩ := by
  rw [run_once_eq_cycle _ notify hget hdata, run_cycle_written]
  rfl

/-- Witness for C10: a state file with an unrelated extra key keeps it through
a completed cycle. -/
theorem state_frame_witness :
    (run_once (.dict ⟨some false, some "", [("note", "keep")]⟩) exFetch false).written =
      some ⟨true, "1|80.00>40.00", [("note", "keep")]⟩ := by
  have h := state_frame ⟨some false, some "", [("note", "keep")]⟩ exFetch false exFeed
    (by decide) (by decide)
  rw [h]
  decide

/-- Counterexample for C2: a variant with strictly negative prices (price −5,
compare-at −1) still produces a Deal, so "parse as finite non-negative
numbers" is not required by the code — only parseability and a strictly
greater reference price are. -/
theorem negative_price_deal :
    collect_deals [negProduct] =
      ([⟨"T", "https://mnstry.com/products/h", 2, -5, -1, 4, 0⟩], 1, 1) := by
  decide

/-- C2 (amended): every Deal produced from any feed has price strictly below
the reference price, and a fresh single variant produces a Deal exactly when
both prices parse as numbers (of any sign) and the reference price strictly
exceeds the price; unparseable or missing fields and non-positive margins
never produce a Deal (and extraction is total, so the cycle never aborts). -/
theorem deal_iff_strict_discount :
    (∀ products : List Product, ∀ d ∈ (collect_deals products).1, d.price < d.compare_at) ∧
    (∀ (t h : Option String) (id : Option ℤ) (pr cp : RawVal),
      (collect_deals [⟨t, h, some (some [⟨pr, cp, id⟩])⟩]).1 ≠ [] ↔
        ∃ p c, to_float pr = some p ∧ to_float cp = some c ∧ p < c) := by
  constructor
  · intro products d hd
    exact (collect_scan_good products).2.2 d hd
  · exact collect_single_variant_iff

/-- Witness for C2 (amended): the spec scenario's deal is strictly discounted,
and an unparseable price yields no deal. -/
theorem deal_iff_strict_discount_witness :
    ((40 : ℚ) < 80) ∧
    ¬(collect_deals [⟨some "T", some "h", some (some [⟨.junk, .num 80, some 9⟩])⟩]).1 ≠ [] := by
  constructor
  · exact deal_iff_strict_discount.1 [exProduct]
      ⟨"T", "https://mnstry.com/products/h", 1, 40, 80, 40, 50⟩ (by decide)
  · intro hne
    rcases (deal_iff_strict_discount.2 (some "T") (some "h") (some 9) .junk (.num 80)).mp hne
      with ⟨p, c, hp, _, _⟩
    simp [to_float] at hp

/-- Counterexample for C4: variant id 7 occurs twice (first parseable but not
discounted, then discounted), yet the DealSet contains zero deals for id 7 —
not "exactly one derived from the first occurrence": the first parseable
occurrence marks the id as seen even without producing a Deal. -/
theorem duplicate_id_zero_deals :
    collect_deals [dupProduct] = ([], 0, 0) ∧
    ((collect_deals [dupProduct]).1.filter (fun d => d.variant_id = 7)).length = 0 := by
  constructor <;> decide

/-- C4 (amended): variant identifiers are unique across any DealSet; a variant
whose (defaulted) identifier is already in the seen-set is dropped silently
without any effect; and when the first occurrence of an identifier parses and
is discounted, any later occurrence of the same identifier is dropped and
exactly one Deal — the first occurrence's — is produced. -/
theorem dedup_first_occurrence :
    (∀ products : List Product, ((collect_deals products).1.map Deal.variant_id).Nodup) ∧
    (∀ (t u : String) (st : VScan) (v : Variant), v.id.getD 0 ∈ st.seen →
      stepVariant t u st v = st) ∧
    (∀ (t h : Option String) (id : ℤ) (p c : ℚ) (v₂ : Variant), v₂.id = some id → p < c →
      collect_deals [⟨t, h, some (some [⟨.num p, .num c, some id⟩, v₂])⟩] =
        collect_deals [⟨t, h, some (some [⟨.num p, .num c, some id⟩])⟩] ∧
      (collect_deals [⟨t, h, some (some [⟨.num p, .num c, some id⟩])⟩]).1.length = 1) := by
  refine ⟨fun products => (collect_scan_good products).1, stepVariant_mem_seen, ?_⟩
  intro t h id p c v₂ hv hpc
  refine ⟨collect_dup_dropped t h id p c v₂ hv, ?_⟩
  simp [collect_deals, collect_scan, stepProduct, get_list, stepVariant, to_float, hpc]

/-- Witness for C4 (amended): the duplicate of a discounted variant id is
dropped and exactly one deal remains; an already-seen id is a no-op step. -/
theorem dedup_first_occurrence_witness :
    (collect_deals
        [⟨some "T", some "h", some (some [⟨.num 40, .num 80, some 5⟩, ⟨.junk, .junk, some 5⟩])⟩] =
      collect_deals [⟨some "T", some "h", some (some [⟨.num 40, .num 80, some 5⟩])⟩] ∧
      (collect_deals [⟨some "T", some "h", some (some [⟨.num 40, .num 80, some 5⟩])⟩]).1.length =
        1) ∧
    stepVariant "T" "u" ⟨[], 0, false, [5]⟩ ⟨.num 1, .num 2, some 5⟩ = ⟨[], 0, false, [5]⟩ :=
  ⟨dedup_first_occurrence.2.2 (some "T") (some "h") 5 40 80 ⟨.junk, .junk, some 5⟩ rfl
      (by decide),
   dedup_first_occurrence.2.1 "T" "u" ⟨[], 0, false, [5]⟩ ⟨.num 1, .num 2, some 5⟩ (by decide)⟩

end RatEval

end MnstryBot
